import Mathlib

/-!
# Verification of the EpsteIn search pipeline (src/epstein.c)

A shallow embedding of the C program `epstein.c`.  C strings are modelled as
`List Char` (NUL-free byte strings at character granularity); machine `int`
values as `Int`; the C `double` backoff delay as `ℚ` (doubling and assignment
from an integer are exact in binary floating point for the magnitudes
involved); fallible steps return `Option`.  Each definition mirrors one C
function and keeps its name.
-/

set_option maxRecDepth 20000

namespace Epstein

/-! ## Character helpers -/

/-- C `tolower` restricted to ASCII, as used by `strncasecmp`. -/
def lowerC (c : Char) : Char :=
  if 'A' ≤ c ∧ c ≤ 'Z' then Char.ofNat (c.toNat + 32) else c

/-- C `isspace` character class (default locale). -/
def isspaceC (c : Char) : Bool :=
  c == ' ' || c == '\t' || c == '\n' || c == '\x0b' || c == '\x0c' || c == '\r'

/-- Decimal digit test, `c >= '0' && c <= '9'`. -/
def isdigitC (c : Char) : Bool :=
  '0' ≤ c && c ≤ '9'

/-- Digit accumulation loop of C `atoi`. -/
def atoiDigits : List Char → ℕ → ℕ
  | [], acc => acc
  | c :: rest, acc =>
      if isdigitC c then atoiDigits rest (acc * 10 + (c.toNat - '0'.toNat))
      else acc

/-- C `atoi`: skip whitespace, optional sign, then leading digits (0 if none).
Overflow is not modelled; the program only ever parses small values. -/
def atoiM (l : List Char) : Int :=
  let l1 := l.dropWhile isspaceC
  match l1 with
  | '-' :: rest => - (atoiDigits rest 0 : Int)
  | '+' :: rest => (atoiDigits rest 0 : Int)
  | rest => (atoiDigits rest 0 : Int)

/-! ## CSV parsing (`parse_csv_field`, lines 184-211) -/

/-- Quoted-field loop of `parse_csv_field` (lines 187-201).  `i` is the number
of characters already written to `out` (the accumulator `acc`, kept reversed);
the loop runs while input remains and `i < maxLen - 1`, copying a doubled
quote as one literal quote and stopping just past a lone closing quote.
Returns the field contents and the rest of the line. -/
def pcfQuoted (maxLen : ℕ) : List Char → ℕ → List Char → List Char × List Char
  | [], _, acc => (acc.reverse, [])
  | [c], i, acc =>
      if i < maxLen - 1 then
        if c = '\x22' then (acc.reverse, [])
        else pcfQuoted maxLen [] (i + 1) (c :: acc)
      else (acc.reverse, [c])
  | c :: c2 :: rest, i, acc =>
      if i < maxLen - 1 then
        if c = '\x22' then
          if c2 = '\x22' then pcfQuoted maxLen rest (i + 1) ('\x22' :: acc)
          else (acc.reverse, c2 :: rest)
        else pcfQuoted maxLen (c2 :: rest) (i + 1) (c :: acc)
      else (acc.reverse, c :: c2 :: rest)

/-- Unquoted-field loop of `parse_csv_field` (lines 202-205): copy until a
comma, newline, carriage return, end of string, or the length cap. -/
def pcfUnquoted (maxLen : ℕ) : List Char → ℕ → List Char → List Char × List Char
  | [], _, acc => (acc.reverse, [])
  | c :: rest, i, acc =>
      if c ≠ ',' ∧ c ≠ '\n' ∧ c ≠ '\r' ∧ i < maxLen - 1 then
        pcfUnquoted maxLen rest (i + 1) (c :: acc)
      else
        (acc.reverse, c :: rest)

/-- Final pointer returned by `parse_csv_field` (lines 208-210):
`if (*p == ',') return p + 1; return NULL`. -/
def csvNext : List Char → Option (List Char)
  | ',' :: r => some r
  | _ => none

/-- `parse_csv_field` (lines 184-211): parse one CSV field; the second
component is the start of the next field (after a comma), or `none` at end of
line (C returns `NULL`). -/
def parse_csv_field (p : List Char) (maxLen : ℕ) : List Char × Option (List Char) :=
  let pr :=
    if p.head? = some '\x22' then pcfQuoted maxLen p.tail 0 []
    else pcfUnquoted maxLen p 0 []
  (pr.1, csvNext pr.2)

theorem csvNext_eq_some {rest r : List Char} (h : csvNext rest = some r) :
    rest = ',' :: r := by
  match rest with
  | [] => simp [csvNext] at h
  | c :: t =>
    by_cases hc : c = ','
    · subst hc
      simp only [csvNext, Option.some.injEq] at h
      rw [h]
    · simp [csvNext, hc] at h

theorem pcfQuoted_rest_length_le (maxLen : ℕ) :
    ∀ (l : List Char) (i : ℕ) (acc : List Char),
      (pcfQuoted maxLen l i acc).2.length ≤ l.length
  | [], _, _ => by simp [pcfQuoted]
  | [c], i, acc => by
      rw [pcfQuoted]
      split
      · split
        · simp
        · have := pcfQuoted_rest_length_le maxLen [] (i + 1) (c :: acc)
          simp_all
      · simp
  | c :: c2 :: rest, i, acc => by
      rw [pcfQuoted]
      split
      · split
        · split
          · have := pcfQuoted_rest_length_le maxLen rest (i + 1) ('\x22' :: acc)
            simp only [List.length_cons]
            omega
          · simp
        · have := pcfQuoted_rest_length_le maxLen (c2 :: rest) (i + 1) (c :: acc)
          simp only [List.length_cons] at *
          omega
      · simp

theorem pcfUnquoted_rest_length_le (maxLen : ℕ) :
    ∀ (l : List Char) (i : ℕ) (acc : List Char),
      (pcfUnquoted maxLen l i acc).2.length ≤ l.length := by
  intro l
  induction l with
  | nil => intro i acc; simp [pcfUnquoted]
  | cons c rest ihr =>
    intro i acc
    simp only [pcfUnquoted]
    split
    · have := ihr (i + 1) (c :: acc)
      simp only [List.length_cons]
      omega
    · simp

/-- The rest-of-line pointer returned by `parse_csv_field` is strictly
shorter than its input: at least the separating comma is consumed. -/
theorem parse_csv_field_rest_lt {p : List Char} {maxLen : ℕ} {f r : List Char}
    (h : parse_csv_field p maxLen = (f, some r)) : r.length < p.length := by
  unfold parse_csv_field at h
  by_cases hq : p.head? = some '\x22'
  · simp only [hq, if_pos] at h
    have h2 : csvNext (pcfQuoted maxLen p.tail 0 []).2 = some r :=
      congrArg Prod.snd h
    have h3 := csvNext_eq_some h2
    have hle := pcfQuoted_rest_length_le maxLen p.tail 0 []
    rw [h3] at hle
    simp only [List.length_cons] at hle
    match p, hq with
    | c :: t, _ =>
      simp only [List.tail_cons, List.length_cons] at hle ⊢
      omega
  · simp only [hq, if_neg, if_false] at h
    have h2 : csvNext (pcfUnquoted maxLen p 0 []).2 = some r :=
      congrArg Prod.snd h
    have h3 := csvNext_eq_some h2
    have hle := pcfUnquoted_rest_length_le maxLen p 0 []
    rw [h3] at hle
    simp only [List.length_cons] at hle
    omega

/-! ## Header-column lookup (`find_column`, lines 213-227) -/

/-- Loop body of `find_column`: parse successive fields of the header line,
returning the zero-based index of the first field equal to `name`, or `-1`
when the line is exhausted.  The fuel argument only makes the recursion
structural; by `parse_csv_field_rest_lt` each iteration strictly shortens
the line, so with fuel `header.length + 1` (as supplied by `find_column`)
the out-of-fuel case is unreachable and the function is exactly the C
loop. -/
def find_column_go (name : List Char) : ℕ → Int → List Char → Int
  | 0, _, _ => -1
  | fuel + 1, col, p =>
      match parse_csv_field p 512 with
      | (f, some r) => if f = name then col else find_column_go name fuel (col + 1) r
      | (f, none) => if f = name then col else -1

/-- `find_column` (lines 213-227). -/
def find_column (header : List Char) (name : List Char) : Int :=
  find_column_go name (header.length + 1) 0 header

/-! ## Contact parsing (`parse_linkedin_contacts`, lines 229-322) -/

/-- One normalized contact record (the C `Contact` struct, lines 76-82). -/
structure Contact where
  first_name : List Char
  last_name : List Char
  full_name : List Char
  company : List Char
  position : List Char
deriving DecidableEq

/-- Field-splitting loop for one data row (lines 275-281): parse up to 20
fields of `MAX_FIELD` (512) bytes each; fields past the 20th are dropped. -/
def split_fields_go : ℕ → List Char → List (List Char)
  | 0, _ => []
  | fuel + 1, p =>
      match parse_csv_field p 512 with
      | (f, some r) => f :: split_fields_go fuel r
      | (f, none) => [f]

/-- Split one data row into its fields (start of the loop at line 275). -/
def split_fields (line : List Char) : List (List Char) :=
  split_fields_go 20 line

/-- Strip trailing newline / carriage-return characters (lines 267-269). -/
def strip_crlf (l : List Char) : List Char :=
  (l.reverse.dropWhile (fun c => c == '\n' || c == '\r')).reverse

/-- Trim leading space characters (lines 287-288: only `' '` is trimmed). -/
def ltrim_spaces (l : List Char) : List Char :=
  l.dropWhile (fun c => c == ' ')

/-- Trim trailing space characters (lines 295-297). -/
def rtrim_spaces (l : List Char) : List Char :=
  (l.reverse.dropWhile (fun c => c == ' ')).reverse

/-- Truncate at the first comma (lines 291-292: credentials after a comma in
the last name are removed). -/
def comma_strip (l : List Char) : List Char :=
  l.takeWhile (fun c => !(c == ','))

/-- Field selected for the first or last name (lines 283-284):
`(col < ncols) ? fields[col] : fields[0]`. -/
def name_field (F : List (List Char)) (col : Int) : List Char :=
  if col < (F.length : Int) then F.getD col.toNat [] else F.headD []

/-- The resolved, trimmed first name of a data row (empty for a blank row). -/
def resolved_first (col_first : Int) (rawLine : List Char) : List Char :=
  let line := strip_crlf rawLine
  if line = [] then []
  else ltrim_spaces (name_field (split_fields line) col_first)

/-- The resolved, trimmed, credential-stripped last name of a data row. -/
def resolved_last (col_last : Int) (rawLine : List Char) : List Char :=
  let line := strip_crlf rawLine
  if line = [] then []
  else rtrim_spaces (comma_strip (ltrim_spaces (name_field (split_fields line) col_last)))

/-- Process one data row of the contact CSV (loop body, lines 266-317):
strip the line terminator, skip blank lines, split fields, resolve and trim
the name fields, drop a credential suffix from the last name, skip rows with
an empty name, and otherwise build the `Contact` (with the C `strncpy` /
`snprintf` truncation to `MAX_FIELD - 1` = 511 characters). -/
def process_row (col_first col_last col_company col_position : Int)
    (rawLine : List Char) : Option Contact :=
  let line := strip_crlf rawLine
  if line = [] then none
  else
    let F := split_fields line
    let first := ltrim_spaces (name_field F col_first)
    let last := rtrim_spaces (comma_strip (ltrim_spaces (name_field F col_last)))
    if first = [] ∨ last = [] then none
    else some {
      first_name := first.take 511
      last_name := last.take 511
      full_name := (first ++ ' ' :: last).take 511
      company :=
        if 0 ≤ col_company ∧ col_company < (F.length : Int) then
          (F.getD col_company.toNat []).take 511
        else []
      position :=
        if 0 ≤ col_position ∧ col_position < (F.length : Int) then
          (F.getD col_position.toNat []).take 511
        else [] }

/-- The data-row loop of `parse_linkedin_contacts` (lines 266-317), appending
each accepted contact to the growing array. -/
def parse_rows (col_first col_last col_company col_position : Int)
    (lines : List (List Char)) : List Contact :=
  lines.foldl
    (fun acc line =>
      match process_row col_first col_last col_company col_position line with
      | some c => acc ++ [c]
      | none => acc)
    []

/-- C `strstr(hay, needle) != NULL`: `needle` occurs as a contiguous
substring of `hay`. -/
def strstr_found (hay needle : List Char) : Bool :=
  match hay with
  | [] => needle.isEmpty
  | _ :: t => needle.isPrefixOf hay || strstr_found t needle

/-- Header search loop (lines 240-245): skip lines until one contains both
`"First Name"` and `"Last Name"` as substrings (C `strstr`); return that
line and the remaining lines. -/
def find_header : List (List Char) → Option (List Char × List (List Char))
  | [] => none
  | l :: rest =>
      if (strstr_found l "First Name".data && strstr_found l "Last Name".data) then
        some (l, rest)
      else find_header rest

/-- `parse_linkedin_contacts` (lines 229-322) on the sequence of lines read
from the file (each line as delivered by `fgets`, including its newline).
Returns the contact list; a missing header or missing required column yields
no contacts (C returns 0). -/
def parse_linkedin_contacts (fileLines : List (List Char)) : List Contact :=
  match find_header fileLines with
  | none => []
  | some (header, rest) =>
      let col_first := find_column header "First Name".data
      let col_last := find_column header "Last Name".data
      let col_company := find_column header "Company".data
      let col_position := find_column header "Position".data
      if col_first < 0 ∨ col_last < 0 then []
      else parse_rows col_first col_last col_company col_position rest

/-! ## Data structures for results (lines 84-98) -/

/-- One matched document excerpt (the C `Hit` struct, lines 84-87). -/
structure Hit where
  content_preview : List Char
  file_path : List Char
deriving DecidableEq

/-- Per-contact search outcome (the C `Result` struct, lines 89-98).  Note
that the struct has `total_mentions` and the hit list but no error field of
any kind; `num_hits` is the length of `hits`. -/
structure Result where
  name : List Char
  first_name : List Char
  last_name : List Char
  company : List Char
  position : List Char
  total_mentions : Int
  hits : List Hit
deriving DecidableEq

/-! ## HTML escaping (`html_escape_to`, lines 140-151) -/

/-- The escape of one character (the `switch` at lines 142-149). -/
def html_escape_char (c : Char) : List Char :=
  if c = '&' then "&amp;".data
  else if c = '<' then "&lt;".data
  else if c = '>' then "&gt;".data
  else if c = '\x22' then "&quot;".data
  else if c = '\x27' then "&#39;".data
  else [c]

/-- `html_escape_to` (lines 140-151), producing the written characters. -/
def html_escape_to (s : List Char) : List Char :=
  s.flatMap html_escape_char

/-! ## URL path encoding (`url_encode_path`, lines 120-136) -/

/-- Characters passed through unencoded by `url_encode_path` (line 126-127). -/
def is_path_safe (c : Char) : Bool :=
  ('A' ≤ c && c ≤ 'Z') || ('a' ≤ c && c ≤ 'z') || ('0' ≤ c && c ≤ '9') ||
    c == '-' || c == '_' || c == '.' || c == '~' || c == '/'

/-- Uppercase hexadecimal digit, as printed by `%02X`. -/
def hex_digit (n : ℕ) : Char :=
  if n < 10 then Char.ofNat ('0'.toNat + n) else Char.ofNat ('A'.toNat + (n - 10))

/-- Percent-encoding of one byte (`sprintf(p, "%%%02X", c)`, line 130). -/
def pct_encode (c : Char) : List Char :=
  ['%', hex_digit (c.toNat % 256 / 16), hex_digit (c.toNat % 256 % 16)]

/-- `url_encode_path` (lines 120-136). -/
def url_encode_path (l : List Char) : List Char :=
  l.flatMap (fun c => if is_path_safe c then [c] else pct_encode c)

/-! ## Decimal rendering of counters (C `printf` `%d`) -/

/-- Digit-emission loop for decimal rendering; the fuel (`n + 1` from
`nat_dec`, more than the number of digits) only makes the recursion
structural. -/
def nat_dec_go : ℕ → ℕ → List Char → List Char
  | 0, _, acc => acc
  | fuel + 1, n, acc =>
      if n < 10 then Char.ofNat ('0'.toNat + n) :: acc
      else nat_dec_go fuel (n / 10) (Char.ofNat ('0'.toNat + n % 10) :: acc)

/-- Decimal digits of a natural number, most significant first. -/
def nat_dec (n : ℕ) : List Char :=
  nat_dec_go (n + 1) n []

/-- `%d` rendering of a C `int`. -/
def int_dec (i : Int) : List Char :=
  if i < 0 then '-' :: nat_dec (-i).toNat else nat_dec i.toNat

/-! ## HTML report generation (`generate_html_report`, lines 444-619) -/

/-- Replace the first occurrence of `dataset` with `DataSet`
(lines 571-577). -/
def fix_dataset : List Char → List Char
  | [] => []
  | c :: t =>
      if "dataset".data.isPrefixOf (c :: t) then "DataSet".data ++ (c :: t).drop 7
      else c :: fix_dataset t

/-- `PDF_BASE_URL` (line 28). -/
def pdf_base_url : List Char :=
  "https://www.justice.gov/epstein/files/".data

/-- `PDF_BASE_URL` with its trailing slash stripped (lines 584-589). -/
def pdf_base_url_stripped : List Char :=
  "https://www.justice.gov/epstein/files".data

/-- The hit link (lines 570-601): truncate the path to 511 bytes, rewrite
`dataset` to `DataSet`, percent-encode it preserving `/`, pick the base URL
form avoiding a doubled slash, truncate the URL to the 2048-byte buffer, and
emit the anchor with both URL and display path HTML-escaped. -/
def render_hit_link (file_path : List Char) : List Char :=
  let fixed_path := fix_dataset (file_path.take 511)
  let enc_path := url_encode_path fixed_path
  let pdf_url :=
    (if fixed_path.head? = some '/' then pdf_base_url_stripped ++ enc_path
     else pdf_base_url ++ enc_path).take 2047
  "            <a class=\"hit-link\" href=\"".data ++
    html_escape_to pdf_url ++
    "\" target=\"_blank\">View PDF: ".data ++
    html_escape_to fixed_path ++
    "</a>\n".data

/-- One hit block (lines 556-603): the preview is truncated to 500
characters before escaping; a link is emitted only for a nonempty path. -/
def render_hit (h : Hit) : List Char :=
  "        <div class=\"hit\">\n            <div class=\"hit-preview\">".data ++
    html_escape_to (h.content_preview.take 500) ++
    "</div>\n".data ++
    (if h.file_path ≠ [] then render_hit_link h.file_path else []) ++
    "        </div>\n".data

/-- The position / company line (lines 539-547). -/
def render_contact_info (r : Result) : List Char :=
  if r.position ≠ [] ∧ r.company ≠ [] then
    html_escape_to r.position ++ " at ".data ++ html_escape_to r.company
  else if r.position ≠ [] then html_escape_to r.position
  else if r.company ≠ [] then html_escape_to r.company
  else []

/-- One contact block (lines 531-608), emitted only for contacts with
mentions; an empty hit list yields the placeholder div (line 605). -/
def render_contact (r : Result) : List Char :=
  "    <div class=\"contact\">\n        <div class=\"contact-header\">\n            <div>\n                <div class=\"contact-name\">".data ++
    html_escape_to r.name ++
    "</div>\n                <div class=\"contact-info\">".data ++
    render_contact_info r ++
    "</div>\n            </div>\n            <div class=\"hit-count\">".data ++
    int_dec r.total_mentions ++
    " mentions</div>\n        </div>\n".data ++
    (if 0 < r.hits.length then r.hits.flatMap render_hit
     else "        <div class=\"no-results\">Hit details not available</div>\n".data) ++
    "    </div>\n".data

/-- The fixed document head and stylesheet (first part of the format string
at lines 484-516, up to the logo interpolation point). -/
def report_head : List Char :=
  ("<!DOCTYPE html>\n<html lang=\"en\">\n<head>\n    <meta charset=\"UTF-8\">\n    <meta name=\"viewport\" content=\"width=device-width, initial-scale=1.0\">\n    <title>EpsteIn: Which LinkedIn Connections Appear in the Epstein Files?</title>\n    <style>\n        * \x7b box-sizing: border-box; \x7d\n        body \x7b font-family: -apple-system, BlinkMacSystemFont, \x27Segoe UI\x27, Roboto, Oxygen, Ubuntu, sans-serif; line-height: 1.6; max-width: 1200px; margin: 0 auto; padding: 20px; background-color: #f5f5f5; \x7d\n        .logo \x7b display: block; max-width: 300px; margin: 0 auto 20px auto; \x7d\n        .summary \x7b background: #fff; padding: 20px; border-radius: 8px; margin-bottom: 30px; box-shadow: 0 2px 4px rgba(0,0,0,0.1); \x7d\n        .contact \x7b background: #fff; padding: 20px; margin-bottom: 20px; border-radius: 8px; box-shadow: 0 2px 4px rgba(0,0,0,0.1); \x7d\n        .contact-header \x7b display: flex; justify-content: space-between; align-items: center; border-bottom: 1px solid #eee; padding-bottom: 10px; margin-bottom: 15px; \x7d\n        .contact-name \x7b font-size: 1.4em; font-weight: bold; color: #333; \x7d\n        .contact-info \x7b color: #666; font-size: 0.9em; \x7d\n        .hit-count \x7b background: #e74c3c; color: white; padding: 5px 15px; border-radius: 20px; font-weight: bold; \x7d\n        .hit \x7b background: #f9f9f9; padding: 15px; margin-bottom: 10px; border-radius: 4px; border-left: 3px solid #3498db; \x7d\n        .hit-preview \x7b color: #444; margin-bottom: 10px; font-size: 0.95em; \x7d\n        .hit-link \x7b display: inline-block; color: #3498db; text-decoration: none; font-size: 0.85em; \x7d\n        .hit-link:hover \x7b text-decoration: underline; \x7d\n        .no-results \x7b color: #999; font-style: italic; \x7d\n        .footer \x7b margin-top: 40px; padding-top: 20px; border-top: 1px solid #ddd; text-align: center; color: #666; font-size: 0.9em; \x7d\n        .footer a \x7b color: #3498db; text-decoration: none; \x7d\n        .footer a:hover \x7b text-decoration: underline; \x7d\n    </style>\n</head>\n<body>\n    ").data

/-- The fixed footer (lines 611-616). -/
def report_footer : List Char :=
  "    <div class=\"footer\">\n        Epstein files indexed by <a href=\"https://dugganusa.com\" target=\"_blank\">DugganUSA.com</a>\n    </div>\n</body>\n</html>\n".data

/-- The text fallback masthead (line 480), used when no logo file exists. -/
def fallback_logo : List Char :=
  "<h1 class=\"logo\" style=\"text-align: center;\">EpsteIn</h1>".data

/-- `generate_html_report` (lines 444-619) as the character stream written
to the output file.  The logo markup is produced by an external asset lookup
(lines 457-480) and is passed in; contacts with `total_mentions == 0` are
skipped in the itemized section but counted in the summary. -/
def generate_html_report (logo_html : List Char) (results : List Result) : List Char :=
  let contacts_with_mentions := results.countP (fun r => decide (0 < r.total_mentions))
  report_head ++ logo_html ++
    "\n    <div class=\"summary\">\n        <strong>Total connections searched:</strong> ".data ++
    nat_dec results.length ++
    "<br>\n        <strong>Connections with mentions:</strong> ".data ++
    nat_dec contacts_with_mentions ++
    "\n    </div>\n".data ++
    results.flatMap (fun r => if r.total_mentions = 0 then [] else render_contact r) ++
    report_footer

/-! ## Retry-After header parsing (`header_cb`, lines 326-334) -/

/-- The guard of `header_cb` (line 331): the line is longer than 12 bytes
and begins with `Retry-After:` case-insensitively (`strncasecmp`). -/
def is_retry_after_line (buffer : List Char) : Bool :=
  decide (12 < buffer.length) && ((buffer.take 12).map lowerC == "retry-after:".data)

/-- One header line processed by `header_cb` (lines 328-334): the stored
value is replaced when the guard holds, parsing the remainder of the line
with `atoi`. -/
def header_cb (acc : Int) (buffer : List Char) : Int :=
  if is_retry_after_line buffer then atoiM (buffer.drop 12)
  else acc

/-- The value of the `retry_after_value` global after all response headers
of one attempt were delivered (it is reset to `0` at line 360). -/
def retry_after_of (headers : List (List Char)) : Int :=
  headers.foldl header_cb 0

/-- The delay update on a 429 response (lines 380-383). -/
def next_delay_429 (headers : List (List Char)) (delay : ℚ) : ℚ :=
  if 0 < retry_after_of headers then ((retry_after_of headers : Int) : ℚ)
  else 2 * delay

/-! ## Upstream JSON response model (§6 of the API contract) -/

/-- One element of the `hits` array: the optional string fields the code
reads (`content_preview`, fallback `content`, and `file_path`); a missing or
non-string member is `none`. -/
structure HitJson where
  content_preview : Option (List Char)
  content : Option (List Char)
  file_path : Option (List Char)
deriving DecidableEq

/-- The `data` object: `totalHits` (when a number; modelled at integer
precision, matching the `(int)` cast at line 405) and the `hits` array
(when an array). -/
structure ApiData where
  totalHits : Option Int
  hits : Option (List HitJson)
deriving DecidableEq

/-- A parsed 200-response body: the `success` flag and optional `data`. -/
structure ApiResponse where
  success : Bool
  data : Option ApiData
deriving DecidableEq

/-- `MAX_HITS` (line 30). -/
def MAX_HITS : ℕ := 100

/-- Interpretation of a parsed 200 response (lines 399-432): on success,
read `totalHits`, retain at most `MAX_HITS` hits in array order, resolving
each preview as `content_preview` with `content` fallback (empty when
neither is a string, from the zeroed `calloc` buffer) and truncating to the
fixed buffers (2047 and 511 bytes). -/
def apply_response (r : Result) (resp : ApiResponse) : Result :=
  if resp.success then
    match resp.data with
    | some d =>
        let tm := match d.totalHits with
                  | some n => n
                  | none => 0
        let hs := match d.hits with
                  | some arr =>
                      (arr.take MAX_HITS).map (fun h =>
                        { content_preview :=
                            (match h.content_preview with
                             | some s => s
                             | none => match h.content with
                                       | some s => s
                                       | none => []).take 2047
                          file_path :=
                            (match h.file_path with
                             | some s => s
                             | none => []).take 511 })
                  | none => []
        { r with total_mentions := tm, hits := hs }
    | none => { r with total_mentions := 0, hits := [] }
  else { r with total_mentions := 0, hits := [] }

/-! ## The per-contact search (`search_epstein_files`, lines 338-440) -/

/-- The observable outcome of one `curl_easy_perform` attempt: a transport
failure, a 429 with its response headers, some other non-200 status, or a
200 whose body parses to `some` response (`none` models malformed JSON). -/
inductive Attempt where
  | fail : Attempt
  | s429 : List (List Char) → Attempt
  | other : Int → Attempt
  | ok : Option ApiResponse → Attempt
deriving DecidableEq

/-- `search_epstein_files` (lines 338-440) on a trace of attempt outcomes.
`r` is the caller's `Result` with the contact fields pre-filled (line
730-735); its `total_mentions` and `hits` are reset on entry (lines
347-349).  The function returns the final `Result`, the returned delay, and
the number of requests issued.  The `interrupted` flag is in scope in the C
function but the retry loop never reads it, so the parameter is unused.  An
exhausted trace models a loop still running (no request counted). -/
def search_epstein_files (interrupted : Bool) (r : Result) :
    List Attempt → ℚ → Result × ℚ × ℕ
  | [], delay => ({ r with total_mentions := 0, hits := [] }, delay, 0)
  | Attempt.fail :: _, delay => ({ r with total_mentions := 0, hits := [] }, delay, 1)
  | Attempt.s429 headers :: rest, delay =>
      let out := search_epstein_files interrupted r rest (next_delay_429 headers delay)
      (out.1, out.2.1, out.2.2 + 1)
  | Attempt.other _ :: _, delay => ({ r with total_mentions := 0, hits := [] }, delay, 1)
  | Attempt.ok none :: _, delay => ({ r with total_mentions := 0, hits := [] }, delay, 1)
  | Attempt.ok (some resp) :: _, delay => (apply_response r resp, delay, 1)

/-! ## Result ordering (`cmp_results`, lines 623-625) -/

/-- The `qsort` comparator: descending by `total_mentions`. -/
def cmp_results (a b : Result) : Int :=
  b.total_mentions - a.total_mentions

/-- Everything the C standard guarantees about `qsort(results, ...)` (line
759): the output is a permutation of the input that is sorted with respect
to the comparator.  The relative order of elements comparing equal is
unspecified. -/
def qsort_post (l out : List Result) : Prop :=
  out.Perm l ∧ out.Pairwise (fun a b => cmp_results a b ≤ 0)

/-! ## The driver loop and report decision (`main`, lines 649-800) -/

/-- Number of loop iterations completed by the search loop (lines 725-743)
when the interrupt flag first reads true at the check with index `setAt`
(checks are made at the top of each iteration; `none` means the flag is
never set).  Equals the number of Results collected. -/
def main_num_results (num_contacts : ℕ) (setAt : Option ℕ) : ℕ :=
  ((List.range num_contacts).takeWhile (fun i =>
    match setAt with
    | none => true
    | some s => decide (i < s))).length

/-- The tail of `main` (lines 696-800) after contact parsing: abort with
exit code 1 when no contacts were parsed (lines 702-706); run the search
loop; on interruption with zero results, exit 0 without writing any report
(lines 745-753); otherwise sort and write the report (lines 758-763) and
exit 0.  Returns (report written, exit code, number of results). -/
def main_flow (num_contacts : ℕ) (setAt : Option ℕ) : Bool × ℕ × ℕ :=
  if num_contacts = 0 then (false, 1, 0)
  else
    let nr := main_num_results num_contacts setAt
    let interrupted_after_loop :=
      match setAt with
      | none => false
      | some s => decide (s ≤ nr)
    if interrupted_after_loop = true ∧ nr = 0 then (false, 0, 0)
    else (true, 0, nr)

/-! ## Spec-side definitions and concrete instances used by the claims -/

/-- Modelled from the spec: trimming a text field of whitespace on both
sides (the spec's `trim`), used to compare the stored `full_name` against
the spec's formula. -/
def spec_trim (l : List Char) : List Char :=
  ((l.dropWhile isspaceC).reverse.dropWhile isspaceC).reverse

/-- Serialization of a field value as a double-quoted CSV field with the
quote character doubled (the quoting convention `parse_csv_field` reads). -/
def csv_quote (v : List Char) : List Char :=
  '\x22' :: (v.flatMap (fun c => if c = '\x22' then ['\x22', '\x22'] else [c]) ++ ['\x22'])

/-- An upstream response is consistent when it delivers no more hits than
the total it reports (`totalHits` and absent members defaulting to the
values the code uses). -/
def upstream_consistent (resp : ApiResponse) : Bool :=
  match resp.data with
  | none => true
  | some d =>
      let tm : Int := match d.totalHits with
                      | some n => n
                      | none => 0
      let hn : ℕ := match d.hits with
                    | some arr => arr.length
                    | none => 0
      decide ((hn : Int) ≤ tm)

/-- A `Result` with mention count 5 (input position 2 of the §8 example). -/
def c1_r5 : Result :=
  { name := "b".data, first_name := [], last_name := [], company := [],
    position := [], total_mentions := 5, hits := [] }

/-- A `Result` with mention count 3, first in input order. -/
def c1_r3a : Result :=
  { name := "a".data, first_name := [], last_name := [], company := [],
    position := [], total_mentions := 3, hits := [] }

/-- A `Result` with mention count 3, second in input order. -/
def c1_r3b : Result :=
  { name := "c".data, first_name := [], last_name := [], company := [],
    position := [], total_mentions := 3, hits := [] }

/-- A `Result` with mention count 0. -/
def c1_r0 : Result :=
  { name := "d".data, first_name := [], last_name := [], company := [],
    position := [], total_mentions := 0, hits := [] }

/-- A `Result` whose free-text fields all carry markup injection attempts. -/
def c2_adversarial : Result :=
  { name := "<script>alert(1)</script>".data
    first_name := []
    last_name := []
    company := "\x22&\x27<>".data
    position := "Head of <script> \x22ops\x27".data
    total_mentions := 4
    hits := [{ content_preview := "see <script>alert(1)</script> & more".data,
               file_path := "dataset 9/evil <doc>.pdf".data }] }

/-- A pre-filled `Result` as `main` hands it to the Search Client. -/
def c3_base : Result :=
  { name := "Jane Roe".data, first_name := "Jane".data, last_name := "Roe".data,
    company := [], position := [], total_mentions := 0, hits := [] }

/-- A 200 response reporting `totalHits = 0` while delivering one hit. -/
def c3_inconsistent_response : ApiResponse :=
  { success := true
    data := some { totalHits := some 0,
                   hits := some [{ content_preview := some "x".data,
                                   content := none,
                                   file_path := some "a.pdf".data }] } }

/-- A consistent 200 response: two reported mentions, one delivered hit. -/
def c3_ok_response : ApiResponse :=
  { success := true
    data := some { totalHits := some 2,
                   hits := some [{ content_preview := some "x".data,
                                   content := none,
                                   file_path := some "a.pdf".data }] } }

/-- A pre-filled `Result` for the error-marker claim. -/
def c6_base : Result :=
  { name := "John Doe".data, first_name := "John".data, last_name := "Doe".data,
    company := "Acme".data, position := "CEO".data, total_mentions := 0, hits := [] }

/-- A successful 200 response with zero mentions and no hits. -/
def c6_zero_hit_response : ApiResponse :=
  { success := true, data := some { totalHits := some 0, hits := some [] } }

/-- A pre-filled `Result` for the cancellation claim. -/
def c9_base : Result :=
  { name := "Ada L".data, first_name := "Ada".data, last_name := "L".data,
    company := [], position := [], total_mentions := 0, hits := [] }

/-- An attempt trace: two rate-limit responses followed by a zero-hit
success. -/
def c9_trace : List Attempt :=
  [Attempt.s429 [], Attempt.s429 [],
   Attempt.ok (some { success := true, data := some { totalHits := some 0, hits := some [] } })]

/-- The contact stored for the raw row `Jane,"Doe, MBA"`. -/
def c7_expected : Contact :=
  { first_name := "Jane".data, last_name := "Doe".data,
    full_name := "Jane Doe".data, company := [], position := [] }

/-- Leading junk line of the sample contact export (no header labels). -/
def c4_pre : List (List Char) :=
  ["Notes: some preamble line\n".data]

/-- Header line of the sample contact export. -/
def c4_header : List Char :=
  "First Name,Last Name,Company,Position\n".data

/-- Data rows of the sample contact export: a plain row, a row with an
empty first name, a blank line, and a quoted last name with a credential
suffix. -/
def c4_rows : List (List Char) :=
  ["John,Doe,Acme,CEO\n".data,
   ",Smith,,\n".data,
   "\n".data,
   "Jane,\x22Doe, MBA\x22,X,Y\n".data]

/-! ## Claim C1 — stability of the result sort -/

/-- C1: The sort at line 759 is `qsort` with a comparator that only compares
`total_mentions`; the C standard leaves the order of elements that compare
equal unspecified.  On the §8 example input with counts `[3, 5, 3, 0]`, the
output `[5, 3(second), 3(first), 0]` satisfies everything `qsort`
guarantees, yet differs from the stable order `[5, 3(first), 3(second), 0]`
the claim requires, so the code does not guarantee the claimed stability. -/
theorem c1_qsort_tie_order_unspecified :
    qsort_post [c1_r3a, c1_r5, c1_r3b, c1_r0] [c1_r5, c1_r3b, c1_r3a, c1_r0] ∧
    ([c1_r5, c1_r3b, c1_r3a, c1_r0] : List Result) ≠ [c1_r5, c1_r3a, c1_r3b, c1_r0] :=
  ⟨⟨by decide, by decide⟩, by decide⟩

/-! ## Claim C2 — HTML escaping of free-text fields -/

theorem html_escape_char_no_raw (c : Char) :
    '<' ∉ html_escape_char c ∧ '>' ∉ html_escape_char c ∧
      '\x22' ∉ html_escape_char c ∧ '\x27' ∉ html_escape_char c := by
  unfold html_escape_char
  split_ifs with h1 h2 h3 h4 h5
  · decide
  · decide
  · decide
  · decide
  · decide
  · refine ⟨?_, ?_, ?_, ?_⟩
    · simp only [List.mem_singleton]
      intro h
      exact h2 h.symm
    · simp only [List.mem_singleton]
      intro h
      exact h3 h.symm
    · simp only [List.mem_singleton]
      intro h
      exact h4 h.symm
    · simp only [List.mem_singleton]
      intro h
      exact h5 h.symm

theorem html_escape_to_no_raw (s : List Char) :
    '<' ∉ html_escape_to s ∧ '>' ∉ html_escape_to s ∧
      '\x22' ∉ html_escape_to s ∧ '\x27' ∉ html_escape_to s := by
  induction s with
  | nil => simp [html_escape_to]
  | cons c s ih =>
    have hc := html_escape_char_no_raw c
    simp only [html_escape_to, List.flatMap_cons, List.mem_append] at *
    refine ⟨?_, ?_, ?_, ?_⟩
    · intro h
      rcases h with h | h
      · exact hc.1 h
      · exact ih.1 h
    · intro h
      rcases h with h | h
      · exact hc.2.1 h
      · exact ih.2.1 h
    · intro h
      rcases h with h | h
      · exact hc.2.2.1 h
      · exact ih.2.2.1 h
    · intro h
      rcases h with h | h
      · exact hc.2.2.2 h
      · exact ih.2.2.2 h

/-- C2: Escaping commutes with concatenation and maps each of the five
markup-reserved characters to its entity, so every occurrence in a field is
replaced; no raw `<`, `>`, `"` or `'` survives escaping for any field
content (every `&` written is likewise the head of an entity, by the
per-character equations); the adversarial preview escapes to inert text, and
the full rendered report over a `Result` whose name, company, position and
preview all contain injection attempts contains no `<script>` substring. -/
theorem c2_fields_escaped :
    (∀ s t : List Char, html_escape_to (s ++ t) = html_escape_to s ++ html_escape_to t) ∧
    (html_escape_to ['&'] = "&amp;".data ∧ html_escape_to ['<'] = "&lt;".data ∧
      html_escape_to ['>'] = "&gt;".data ∧ html_escape_to ['\x22'] = "&quot;".data ∧
      html_escape_to ['\x27'] = "&#39;".data) ∧
    (∀ s : List Char, '<' ∉ html_escape_to s ∧ '>' ∉ html_escape_to s ∧
      '\x22' ∉ html_escape_to s ∧ '\x27' ∉ html_escape_to s) ∧
    html_escape_to ("<script>alert(1)</script>".data) =
      "&lt;script&gt;alert(1)&lt;/script&gt;".data ∧
    strstr_found (generate_html_report fallback_logo [c2_adversarial]) ("<script>".data) = false := by
  refine ⟨?_, ⟨by decide, by decide, by decide, by decide, by decide⟩,
    html_escape_to_no_raw, by decide, by decide⟩
  intro s t
  simp [html_escape_to]

/-- Witness for C2 at concrete inputs: a name containing `<` escapes with no
raw `<` left, and escaping distributes over an append. -/
theorem c2_fields_escaped_witness :
    '<' ∉ html_escape_to ("a<b&c".data) ∧
      html_escape_to ("x".data ++ "<".data) =
        html_escape_to ("x".data) ++ html_escape_to ("<".data) :=
  ⟨(c2_fields_escaped.2.2.1 ("a<b&c".data)).1, c2_fields_escaped.1 ("x".data) ("<".data)⟩

/-! ## Claim C3 — the hit-count invariant -/

/-- C3 counterexample: an upstream 200 response reporting `totalHits = 0`
while delivering one hit yields a `Result` with one retained hit, violating
`hits.length ≤ min(total_mentions, 100)`; the code caps only at 100 and
never compares against `totalHits`. -/
theorem c3_counterexample :
    ¬ (((search_epstein_files false c3_base
          [Attempt.ok (some c3_inconsistent_response)] (1/4)).1.hits.length : Int) ≤
        min (search_epstein_files false c3_base
          [Attempt.ok (some c3_inconsistent_response)] (1/4)).1.total_mentions 100) := by
  decide

/-- C3 (amended): the number of retained hits never exceeds the cap
`MAX_HITS = 100`; the full invariant `hits.length ≤ min(total_mentions,
100)` holds whenever the upstream response is consistent, i.e. delivers no
more hits than the total it reports. -/
theorem c3_hits_le_cap (b : Bool) (r : Result) (resp : ApiResponse) (d : ℚ) :
    (search_epstein_files b r [Attempt.ok (some resp)] d).1.hits.length ≤ MAX_HITS ∧
    (upstream_consistent resp = true →
      (((search_epstein_files b r [Attempt.ok (some resp)] d).1.hits.length : Int) ≤
        min (search_epstein_files b r [Attempt.ok (some resp)] d).1.total_mentions 100)) := by
  have hs : (search_epstein_files b r [Attempt.ok (some resp)] d).1 = apply_response r resp := rfl
  rw [hs]
  rcases resp with ⟨suc, dat⟩
  cases suc
  · simp [apply_response, MAX_HITS]
  · cases dat with
    | none => simp [apply_response, MAX_HITS]
    | some dd =>
      rcases dd with ⟨th, harr⟩
      cases harr with
      | none =>
        cases th with
        | none => simp [apply_response, upstream_consistent, MAX_HITS]
        | some tm => simp [apply_response, upstream_consistent, MAX_HITS]
      | some arr =>
        cases th with
        | none => simp [apply_response, upstream_consistent, MAX_HITS]
        | some tm =>
          simp [apply_response, upstream_consistent, MAX_HITS]
          intro h
          exact Or.inr h

/-- Witness for C3 at a concrete consistent response (two reported
mentions, one delivered hit). -/
theorem c3_hits_le_cap_witness :
    ((search_epstein_files false c3_base
        [Attempt.ok (some c3_ok_response)] (1/4)).1.hits.length : Int) ≤
      min (search_epstein_files false c3_base
        [Attempt.ok (some c3_ok_response)] (1/4)).1.total_mentions 100 :=
  (c3_hits_le_cap false c3_base c3_ok_response (1/4)).2 (by decide)

/-! ## Claim C5 — Retry-After handling on 429 -/

theorem retry_after_of_no_header_aux (hs : List (List Char))
    (h : ∀ l ∈ hs, is_retry_after_line l = false) :
    ∀ acc : Int, hs.foldl header_cb acc = acc := by
  induction hs with
  | nil => intro acc; rfl
  | cons l hs ih =>
    intro acc
    have hl : is_retry_after_line l = false := h l (by simp)
    simp only [List.foldl_cons, header_cb, hl, Bool.false_eq_true, if_false]
    exact ih (fun l hm => h l (by simp [hm])) acc

/-- C5: On a 429 response, if the parsed `Retry-After` value is positive the
next delay is exactly that value, regardless of the prior backoff value; if
no header line passes the `Retry-After:` guard the next delay is exactly
double the prior one; and the same request is then retried with the updated
delay (the 429 branch recurses, adding one issued request). -/
theorem c5_retry_after_sets_delay (d : ℚ) (hs : List (List Char)) :
    (0 < retry_after_of hs → next_delay_429 hs d = (retry_after_of hs : ℚ)) ∧
    ((∀ l ∈ hs, is_retry_after_line l = false) → next_delay_429 hs d = 2 * d) ∧
    (∀ (b : Bool) (r : Result) (rest : List Attempt),
      search_epstein_files b r (Attempt.s429 hs :: rest) d =
        ((search_epstein_files b r rest (next_delay_429 hs d)).1,
         (search_epstein_files b r rest (next_delay_429 hs d)).2.1,
         (search_epstein_files b r rest (next_delay_429 hs d)).2.2 + 1)) := by
  refine ⟨?_, ?_, ?_⟩
  · intro h
    simp [next_delay_429, h]
  · intro hnone
    have hz : retry_after_of hs = 0 := retry_after_of_no_header_aux hs hnone 0
    simp [next_delay_429, hz]
  · intro b r rest
    rfl

/-- Witness for C5: `Retry-After: 5` overrides a prior delay of `1/4`
exactly to `5`; with only a non-`Retry-After` header the delay `1` doubles
to `2`. -/
theorem c5_retry_after_sets_delay_witness :
    next_delay_429 [("Retry-After: 5\r\n".data)] (1/4) = 5 ∧
      next_delay_429 [("Content-Type: application/json\r\n".data)] 1 = 2 := by
  constructor
  · have h := (c5_retry_after_sets_delay (1/4) [("Retry-After: 5\r\n".data)]).1 (by decide)
    rw [h]
    decide
  · have h := (c5_retry_after_sets_delay 1 [("Content-Type: application/json\r\n".data)]).2.1
      (by decide)
    rw [h]
    simp

/-! ## Claim C6 — error marking of failed lookups -/

/-- C6 counterexample: the C `Result` struct has no error field, and a
transport failure (or a non-200/non-429 status) produces a `Result` equal,
field for field, to the one produced by a successful zero-mention lookup —
the two outcomes are not distinguishable downstream. -/
theorem c6_counterexample :
    (search_epstein_files false c6_base [Attempt.fail] (1/4)).1 =
      (search_epstein_files false c6_base [Attempt.ok (some c6_zero_hit_response)] (1/4)).1 ∧
    (search_epstein_files false c6_base [Attempt.other 500] (1/4)).1 =
      (search_epstein_files false c6_base [Attempt.ok (some c6_zero_hit_response)] (1/4)).1 := by
  constructor
  · decide
  · decide

/-- C6 (amended): every terminal failure — transport error, non-200/non-429
status, or malformed JSON — leaves the `Result` with `total_mentions = 0`
and no hits, exactly the value of a zero-mention success; the struct carries
no error marker (failures surface only as a warning on stderr). -/
theorem c6_failure_leaves_result_empty (b : Bool) (r : Result) (d : ℚ) (code : Int) :
    (search_epstein_files b r [Attempt.fail] d).1 = { r with total_mentions := 0, hits := [] } ∧
    (search_epstein_files b r [Attempt.other code] d).1 =
      { r with total_mentions := 0, hits := [] } ∧
    (search_epstein_files b r [Attempt.ok none] d).1 =
      { r with total_mentions := 0, hits := [] } ∧
    (search_epstein_files b r [Attempt.ok (some c6_zero_hit_response)] d).1 =
      { r with total_mentions := 0, hits := [] } :=
  ⟨rfl, rfl, rfl, rfl⟩

/-! ## Claim C9 — cancellation and the 429 retry loop -/

/-- C9 counterexample: with the cancellation flag already set, a trace of
two 429 responses followed by a success still issues three requests — the
retry loop never reads the flag, so it issues further retries of the same
request beyond the in-flight one. -/
theorem c9_counterexample :
    (search_epstein_files true c9_base c9_trace (1/4)).2.2 = 3 ∧
      ¬ ((search_epstein_files true c9_base c9_trace (1/4)).2.2 ≤ 1) := by
  constructor
  · decide
  · decide

/-- C9 (amended): the retry loop stops exactly at the first non-429 outcome
(success, malformed body, transport failure or other status): after `k`
rate-limit responses it has issued `k + 1` requests, independently of the
cancellation flag, which is only consulted between contacts by the driver
loop. -/
theorem c9_loop_stops_on_non429 (b : Bool) (r : Result) (d : ℚ)
    (hss : List (List (List Char))) (a : Attempt)
    (ha : ∀ hs, a ≠ Attempt.s429 hs) :
    (search_epstein_files b r (hss.map Attempt.s429 ++ [a]) d).2.2 = hss.length + 1 := by
  induction hss generalizing d with
  | nil =>
    cases a with
    | fail => rfl
    | s429 hs => exact absurd rfl (ha hs)
    | other code => rfl
    | ok o =>
      cases o with
      | none => rfl
      | some resp => rfl
  | cons hs hss ih =>
    simp only [List.map_cons, List.cons_append, search_epstein_files, List.append_eq]
    rw [ih (next_delay_429 hs d)]
    simp

/-- Witness for C9: two 429s followed by a transport failure issue exactly
three requests, flag set or not. -/
theorem c9_loop_stops_on_non429_witness :
    (search_epstein_files true c9_base
        (([[], []] : List (List (List Char))).map Attempt.s429 ++ [Attempt.fail]) 1).2.2 =
      ([[], []] : List (List (List Char))).length + 1 :=
  c9_loop_stops_on_non429 true c9_base 1 [[], []] Attempt.fail
    (fun _ h => Attempt.noConfusion h)

/-! ## Claim C10 — no report without results -/

theorem main_num_results_none (n : ℕ) : main_num_results n none = n := by
  unfold main_num_results
  have h : ∀ l : List ℕ, l.takeWhile (fun _ => true) = l := by
    intro l
    induction l with
    | nil => rfl
    | cons x l ih => simp [List.takeWhile, ih]
  simp [h]

theorem main_num_results_some_zero (n : ℕ) (hn : n ≠ 0) :
    main_num_results n (some 0) = 0 := by
  obtain ⟨m, rfl⟩ : ∃ m, n = m + 1 := ⟨n - 1, by omega⟩
  unfold main_num_results
  rw [List.range_succ_eq_map]
  simp [List.takeWhile]

theorem main_num_results_pos (n v : ℕ) (hn : n ≠ 0) (hv : 0 < v) :
    0 < main_num_results n (some v) := by
  obtain ⟨m, rfl⟩ : ∃ m, n = m + 1 := ⟨n - 1, by omega⟩
  unfold main_num_results
  rw [List.range_succ_eq_map]
  simp [List.takeWhile, hv]

/-- C10: When the cancellation flag is observed before any `Result` exists,
`main` writes no report and exits 0 (lines 745-753); and a report is only
ever written when at least one `Result` was collected. -/
theorem c10_no_report_without_results (n : ℕ) (s : Option ℕ) :
    (1 ≤ n → main_flow n (some 0) = (false, 0, 0)) ∧
    ((main_flow n s).1 = true → 1 ≤ (main_flow n s).2.2) := by
  constructor
  · intro hn
    unfold main_flow
    rw [if_neg (by omega)]
    have h0 : main_num_results n (some 0) = 0 := main_num_results_some_zero n (by omega)
    simp [h0]
  · intro hw
    by_cases hn : n = 0
    · simp [main_flow, hn] at hw
    · by_cases hz : main_num_results n s = 0
      · cases s with
        | none =>
          exact absurd (hz ▸ main_num_results_none n) (Ne.symm hn)
        | some v =>
          by_cases hv : v = 0
          · subst hv
            unfold main_flow at hw
            rw [if_neg hn] at hw
            simp [hz] at hw
          · exact absurd hz (by
              have := main_num_results_pos n v hn (by omega)
              omega)
      · have h1 : 1 ≤ main_num_results n s := Nat.one_le_iff_ne_zero.mpr hz
        unfold main_flow
        rw [if_neg hn]
        cases s with
        | none =>
          rw [if_neg (by simp)]
          simpa using h1
        | some v =>
          rw [if_neg (fun hc => hz hc.2)]
          simpa using h1

/-- Witness for C10: with two contacts, cancellation observed at the very
first check writes no report and exits 0; cancellation after one contact
leaves at least one result behind the written report. -/
theorem c10_no_report_without_results_witness :
    main_flow 2 (some 0) = (false, 0, 0) ∧ 1 ≤ (main_flow 2 (some 1)).2.2 :=
  ⟨(c10_no_report_without_results 2 (some 1)).1 (by decide),
   (c10_no_report_without_results 2 (some 1)).2 (by decide)⟩

/-! ## Claim C8 — CSV round-trip of quoted fields -/

theorem pcfQuoted_cons_plain (maxLen i : ℕ) (c : Char) (t acc : List Char)
    (h : i < maxLen - 1) (hc : c ≠ '\x22') :
    pcfQuoted maxLen (c :: t) i acc = pcfQuoted maxLen t (i + 1) (c :: acc) := by
  cases t with
  | nil =>
    conv_lhs => rw [pcfQuoted]
    simp [h, hc, pcfQuoted]
  | cons c2 t2 =>
    conv_lhs => rw [pcfQuoted]
    simp [h, hc]

theorem pcfQuoted_cons_dquote (maxLen i : ℕ) (t acc : List Char)
    (h : i < maxLen - 1) :
    pcfQuoted maxLen ('\x22' :: '\x22' :: t) i acc =
      pcfQuoted maxLen t (i + 1) ('\x22' :: acc) := by
  rw [pcfQuoted]
  simp [h]

theorem pcfQuoted_close_nil (maxLen i : ℕ) (acc : List Char) (h : i < maxLen - 1) :
    pcfQuoted maxLen ['\x22'] i acc = (acc.reverse, []) := by
  rw [pcfQuoted]
  simp [h]

theorem pcfQuoted_stop_single (maxLen i : ℕ) (c : Char) (acc : List Char)
    (h : ¬ i < maxLen - 1) :
    pcfQuoted maxLen [c] i acc = (acc.reverse, [c]) := by
  rw [pcfQuoted]
  simp [h]

theorem c8_round_trip_aux :
    ∀ (v : List Char) (i : ℕ) (acc : List Char), acc.length = i → i + v.length ≤ 511 →
      (pcfQuoted 512
          ((v.flatMap (fun c => if c = '\x22' then ['\x22', '\x22'] else [c])) ++ ['\x22'])
          i acc).1 =
        acc.reverse ++ v := by
  intro v
  induction v with
  | nil =>
    intro i acc ha _
    simp only [List.flatMap_nil, List.nil_append]
    by_cases h : i < 511
    · rw [pcfQuoted_close_nil 512 i acc (by omega)]
      simp
    · rw [pcfQuoted_stop_single 512 i '\x22' acc (by omega)]
      simp
  | cons c v' ih =>
    intro i acc ha hb
    simp only [List.flatMap_cons, List.append_assoc]
    simp only [List.length_cons] at hb
    by_cases hc : c = '\x22'
    · subst hc
      rw [show ((if ('\x22' : Char) = '\x22' then ['\x22', '\x22'] else ['\x22']) : List Char)
            = ['\x22', '\x22'] from rfl]
      simp only [List.cons_append, List.nil_append]
      rw [pcfQuoted_cons_dquote 512 i _ acc (by omega)]
      rw [ih (i + 1) ('\x22' :: acc) (by simp [ha]) (by omega)]
      simp
    · rw [show (if c = '\x22' then ['\x22', '\x22'] else [c]) = [c] by simp [hc]]
      simp only [List.cons_append, List.nil_append]
      rw [pcfQuoted_cons_plain 512 i c _ acc (by omega) hc]
      rw [ih (i + 1) (c :: acc) (by simp [ha]) (by omega)]
      simp

/-- C8 counterexample: a field value of 512 commas does not survive the
quoted round trip — the copy loop stops at `MAX_FIELD - 1 = 511` characters
and the value is silently truncated. -/
theorem c8_counterexample :
    (parse_csv_field (csv_quote (List.replicate 512 ',')) 512).1 ≠
      List.replicate 512 ',' := by
  decide

/-- C8 (amended): for every NUL-free field value of at most 511 characters
(the `MAX_FIELD - 1` capacity the parser copies into) containing the
delimiter or the quote character, parsing the double-quoted serialized form
with doubled quotes yields the literal value. -/
theorem c8_quoted_round_trip (v : List Char) (h1 : v.length ≤ 511)
    (_h2 : ',' ∈ v ∨ '\x22' ∈ v) :
    (parse_csv_field (csv_quote v) 512).1 = v := by
  unfold parse_csv_field csv_quote
  simp only [List.head?_cons, List.tail_cons, if_pos]
  have := c8_round_trip_aux v 0 [] rfl (by omega)
  simpa using this

/-- Witness for C8: the spec's example field `Smith, Jr.` (which contains
the delimiter) round-trips through its quoted form. -/
theorem c8_quoted_round_trip_witness :
    (parse_csv_field (csv_quote ("Smith, Jr.".data)) 512).1 = "Smith, Jr.".data :=
  c8_quoted_round_trip ("Smith, Jr.".data) (by decide) (Or.inl (by decide))

/-! ## Claim C7 — full-name composition -/

theorem pcfQuoted_out_length_le (maxLen : ℕ) :
    ∀ (l : List Char) (i : ℕ) (acc : List Char), acc.length = i → i ≤ maxLen - 1 →
      (pcfQuoted maxLen l i acc).1.length ≤ maxLen - 1
  | [], i, acc => by
      intro ha hb
      simp only [pcfQuoted, List.length_reverse]
      omega
  | [c], i, acc => by
      intro ha hb
      rw [pcfQuoted]
      split
      · split
        · simp only [List.length_reverse]
          omega
        · exact pcfQuoted_out_length_le maxLen [] (i + 1) (c :: acc)
            (by simp [ha]) (by omega)
      · simp only [List.length_reverse]
        omega
  | c :: c2 :: rest, i, acc => by
      intro ha hb
      rw [pcfQuoted]
      split
      · split
        · split
          · exact pcfQuoted_out_length_le maxLen rest (i + 1) ('\x22' :: acc)
              (by simp [ha]) (by omega)
          · simp only [List.length_reverse]
            omega
        · exact pcfQuoted_out_length_le maxLen (c2 :: rest) (i + 1) (c :: acc)
            (by simp [ha]) (by omega)
      · simp only [List.length_reverse]
        omega

theorem pcfUnquoted_out_length_le (maxLen : ℕ) :
    ∀ (l : List Char) (i : ℕ) (acc : List Char), acc.length = i → i ≤ maxLen - 1 →
      (pcfUnquoted maxLen l i acc).1.length ≤ maxLen - 1 := by
  intro l
  induction l with
  | nil =>
    intro i acc ha hb
    simp only [pcfUnquoted, List.length_reverse]
    omega
  | cons c rest ih =>
    intro i acc ha hb
    simp only [pcfUnquoted]
    split
    · rename_i hcond
      exact ih (i + 1) (c :: acc) (by simp [ha]) (by omega)
    · simp only [List.length_reverse]
      omega

theorem parse_csv_field_out_le (p : List Char) :
    (parse_csv_field p 512).1.length ≤ 511 := by
  have hrfl : (parse_csv_field p 512).1 =
      (if p.head? = some '\x22' then pcfQuoted 512 p.tail 0 []
       else pcfUnquoted 512 p 0 []).1 := rfl
  rw [hrfl]
  split
  · exact pcfQuoted_out_length_le 512 p.tail 0 [] rfl (by omega)
  · exact pcfUnquoted_out_length_le 512 p 0 [] rfl (by omega)

theorem split_fields_mem_length_le :
    ∀ (fuel : ℕ) (p f : List Char), f ∈ split_fields_go fuel p → f.length ≤ 511 := by
  intro fuel
  induction fuel with
  | zero =>
    intro p f h
    simp [split_fields_go] at h
  | succ fuel ih =>
    intro p f h
    unfold split_fields_go at h
    rcases hpc : parse_csv_field p 512 with ⟨f0, r⟩
    rw [hpc] at h
    have hout := parse_csv_field_out_le p
    rw [hpc] at hout
    cases r with
    | some r2 =>
      simp only [List.mem_cons] at h
      rcases h with h | h
      · subst h
        simpa using hout
      · exact ih r2 f h
    | none =>
      simp only [List.mem_singleton] at h
      subst h
      simpa using hout

theorem name_field_length_le (line : List Char) (col : Int) :
    (name_field (split_fields line) col).length ≤ 511 := by
  unfold name_field
  split
  · by_cases h : col.toNat < (split_fields line).length
    · rw [List.getD_eq_getElem _ _ h]
      exact split_fields_mem_length_le 20 line _ (List.getElem_mem h)
    · rw [List.getD_eq_default _ _ (by omega)]
      simp
  · cases hF : split_fields line with
    | nil => simp
    | cons f0 rest =>
      simp only [List.headD_cons]
      exact split_fields_mem_length_le 20 line f0 (by rw [show split_fields_go 20 line = split_fields line from rfl, hF]; simp)

theorem comma_not_mem_processed_last (x : List Char) :
    ',' ∉ rtrim_spaces (comma_strip x) := by
  intro h
  unfold rtrim_spaces at h
  rw [List.mem_reverse] at h
  have h2 : ',' ∈ (comma_strip x).reverse := (List.dropWhile_sublist _).subset h
  rw [List.mem_reverse] at h2
  have h3 := List.mem_takeWhile_imp h2
  simp at h3

/-- C7 counterexample: the parser trims only leading spaces of the first
name (lines 287-288), so the raw row `John ,Doe` is stored with first name
`John ` (trailing space kept) and `full_name` `John  Doe` (two spaces) —
not `trim(first_name) + " " + trim(last_name)` = `John Doe` as the claim
requires. -/
theorem c7_counterexample :
    ¬ (∀ c : Contact, process_row 0 1 (-1) (-1) ("John ,Doe".data) = some c →
        c.full_name = spec_trim c.first_name ++ ' ' :: spec_trim c.last_name) := by
  intro hall
  have h := hall
    { first_name := "John ".data, last_name := "Doe".data,
      full_name := "John  Doe".data, company := [], position := [] } (by decide)
  exact absurd h (by decide)

/-- C7 (amended): for every stored contact, `full_name` is the stored
`first_name` (leading spaces trimmed, trailing whitespace retained),
a single space, and the stored `last_name` (leading spaces trimmed,
credential suffix after a comma discarded, trailing spaces trimmed),
truncated to the 511-character field bound; the stored last name never
contains a comma, so raw last name `Doe, MBA` is stored as `Doe`. -/
theorem c7_full_name_composition (cf cl cc cp : Int) (line : List Char) (c : Contact)
    (h : process_row cf cl cc cp line = some c) :
    c.full_name = (c.first_name ++ ' ' :: c.last_name).take 511 ∧ ',' ∉ c.last_name := by
  simp only [process_row] at h
  by_cases h0 : strip_crlf line = []
  · rw [if_pos h0] at h
    exact absurd h (by simp)
  by_cases h1 : ltrim_spaces (name_field (split_fields (strip_crlf line)) cf) = [] ∨
      rtrim_spaces (comma_strip (ltrim_spaces
        (name_field (split_fields (strip_crlf line)) cl))) = []
  · rw [if_neg h0, if_pos h1] at h
    exact absurd h (by simp)
  rw [if_neg h0, if_neg h1] at h
  have hc := Option.some.inj h
  subst hc
  have hf : (ltrim_spaces (name_field (split_fields (strip_crlf line)) cf)).length ≤ 511 :=
    le_trans (List.dropWhile_sublist _).length_le (name_field_length_le _ _)
  have hl : (rtrim_spaces (comma_strip (ltrim_spaces
      (name_field (split_fields (strip_crlf line)) cl)))).length ≤ 511 := by
    unfold rtrim_spaces comma_strip
    calc ((((ltrim_spaces _).takeWhile _).reverse.dropWhile _).reverse).length
        ≤ (((ltrim_spaces _).takeWhile _).reverse).length := by
          rw [List.length_reverse]
          exact (List.dropWhile_sublist _).length_le
      _ ≤ ((ltrim_spaces (name_field (split_fields (strip_crlf line)) cl)).takeWhile
            (fun c => !(c == ','))).length := by rw [List.length_reverse]
      _ ≤ (ltrim_spaces (name_field (split_fields (strip_crlf line)) cl)).length :=
          (List.takeWhile_sublist _).length_le
      _ ≤ 511 :=
          le_trans (List.dropWhile_sublist _).length_le (name_field_length_le _ _)
  constructor
  · simp only []
    rw [List.take_of_length_le hf, List.take_of_length_le hl]
  · simp only []
    rw [List.take_of_length_le hl]
    exact comma_not_mem_processed_last _

/-- Witness for C7: the row `Jane,"Doe, MBA"` is stored with last name
`Doe` and `full_name` composed exactly from the stored fields. -/
theorem c7_full_name_composition_witness :
    c7_expected.full_name = (c7_expected.first_name ++ ' ' :: c7_expected.last_name).take 511 ∧
      ',' ∉ c7_expected.last_name :=
  c7_full_name_composition 0 1 (-1) (-1) ("Jane,\x22Doe, MBA\x22\n".data) c7_expected (by decide)

/-! ## Claim C4 — the parser yields exactly the valid rows, in order -/

theorem parse_rows_eq_filterMap (cf cl cc cp : Int) (lines : List (List Char)) :
    parse_rows cf cl cc cp lines = lines.filterMap (process_row cf cl cc cp) := by
  have haux : ∀ (ls : List (List Char)) (acc : List Contact),
      ls.foldl (fun acc line =>
        match process_row cf cl cc cp line with
        | some c => acc ++ [c]
        | none => acc) acc = acc ++ ls.filterMap (process_row cf cl cc cp) := by
    intro ls
    induction ls with
    | nil => intro acc; simp
    | cons l ls ih =>
      intro acc
      simp only [List.foldl_cons, List.filterMap_cons]
      cases hpr : process_row cf cl cc cp l with
      | none => simp [ih]
      | some c => simp [ih]
  simpa [parse_rows] using haux lines []

theorem find_header_skips (pre : List (List Char)) (header : List Char)
    (rows : List (List Char))
    (hpre : ∀ l ∈ pre,
      (strstr_found l "First Name".data && strstr_found l "Last Name".data) = false)
    (hhdr : (strstr_found header "First Name".data &&
      strstr_found header "Last Name".data) = true) :
    find_header (pre ++ header :: rows) = some (header, rows) := by
  induction pre with
  | nil =>
    simp only [List.nil_append, find_header]
    rw [if_pos hhdr]
  | cons l pre ih =>
    simp only [List.cons_append, find_header]
    rw [if_neg (by rw [hpre l (by simp)]; simp)]
    exact ih (fun l2 hm => hpre l2 (by simp [hm]))

/-- C4: For a file whose first header-like line is `header` (no earlier line
contains both labels) with both required columns present, the parser output
is exactly `rows.filterMap process_row` — each data row contributes its
contact exactly when its resolved first and last names are non-empty after
trimming, nothing is dropped or duplicated, and output order is input row
order; and acceptance of a row is equivalent to both resolved trimmed names
being non-empty. -/
theorem c4_parser_exact_filter (pre : List (List Char)) (header : List Char)
    (rows : List (List Char))
    (hpre : ∀ l ∈ pre,
      (strstr_found l "First Name".data && strstr_found l "Last Name".data) = false)
    (hhdr : (strstr_found header "First Name".data &&
      strstr_found header "Last Name".data) = true)
    (hcf : 0 ≤ find_column header "First Name".data)
    (hcl : 0 ≤ find_column header "Last Name".data) :
    parse_linkedin_contacts (pre ++ header :: rows) =
      rows.filterMap (process_row (find_column header "First Name".data)
        (find_column header "Last Name".data) (find_column header "Company".data)
        (find_column header "Position".data)) ∧
    (∀ line, (process_row (find_column header "First Name".data)
        (find_column header "Last Name".data) (find_column header "Company".data)
        (find_column header "Position".data) line).isSome = true ↔
      (resolved_first (find_column header "First Name".data) line ≠ [] ∧
        resolved_last (find_column header "Last Name".data) line ≠ [])) := by
  constructor
  · unfold parse_linkedin_contacts
    rw [find_header_skips pre header rows hpre hhdr]
    change (if find_column header "First Name".data < 0 ∨
        find_column header "Last Name".data < 0 then []
      else parse_rows (find_column header "First Name".data)
        (find_column header "Last Name".data) (find_column header "Company".data)
        (find_column header "Position".data) rows) = _
    rw [if_neg (by omega)]
    exact parse_rows_eq_filterMap _ _ _ _ rows
  · intro line
    simp only [process_row, resolved_first, resolved_last]
    by_cases h0 : strip_crlf line = []
    · simp [h0]
    · rw [if_neg h0, if_neg h0, if_neg h0]
      by_cases h1 : ltrim_spaces (name_field (split_fields (strip_crlf line))
          (find_column header "First Name".data)) = [] ∨
          rtrim_spaces (comma_strip (ltrim_spaces (name_field (split_fields (strip_crlf line))
            (find_column header "Last Name".data)))) = []
      · rw [if_pos h1]
        simp only [Option.isSome_none, Bool.false_eq_true, false_iff]
        tauto
      · rw [if_neg h1]
        simp only [Option.isSome_some, true_iff]
        tauto

/-- Witness for C4 on a concrete export: a junk line, the header, a valid
row, an empty-first-name row, a blank line, and a quoted-credential row;
the parse equals the filterMap of the row processor. -/
theorem c4_parser_exact_filter_witness :
    parse_linkedin_contacts (c4_pre ++ c4_header :: c4_rows) =
      c4_rows.filterMap (process_row (find_column c4_header "First Name".data)
        (find_column c4_header "Last Name".data) (find_column c4_header "Company".data)
        (find_column c4_header "Position".data)) :=
  (c4_parser_exact_filter c4_pre c4_header c4_rows
    (by intro l hm; simp only [c4_pre, List.mem_singleton] at hm; subst hm; decide)
    (by decide) (by decide) (by decide)).1

end Epstein
